import Mathlib

/-!
Verification of the EduBot backend (`backend/app`): a shallow embedding of the
keyword-search tools (`tools.py`), the provider selector (`llm_provider.py`),
the agent transition function (`graph.py`) and the streaming chat handler
(`chat_router.py`), together with theorems settling the specification claims.

Machine strings are modelled as Lean `String` (a list of characters);
Python-specific primitives (`str.split()`, `str.isdigit()`, `"x" in s`,
list indexing with negative indices, `readlines`) are embedded explicitly
below, each named `py...` after the primitive it models.
-/

/-! ## String utilities modelling Python primitives -/

/-- Python `s.lower()` (character-wise lowering; the source only handles ASCII). -/
def pyLower (s : String) : String := String.mk (s.data.map Char.toLower)

/-- Helper for substring containment: does `pat` occur contiguously in the list? -/
def subAux (pat : List Char) : List Char → Bool
  | [] => pat.isEmpty
  | c :: t => pat.isPrefixOf (c :: t) || subAux pat t

/-- Python `pat in s` (substring containment test). -/
def hasSubstr (s pat : String) : Bool := subAux pat.data s.data

/-- Python `s.strip()`: remove leading and trailing whitespace. -/
def pyStrip (s : String) : String :=
  String.mk (((s.data.dropWhile Char.isWhitespace).reverse.dropWhile Char.isWhitespace).reverse)

/-- Python `s.rstrip(',')`: remove all trailing commas. -/
def rstripCommas (s : String) : String :=
  String.mk ((s.data.reverse.dropWhile (fun c => c == ',')).reverse)

/-- Python `s.startswith(pre)`. -/
def pyStartsWith (s pre : String) : Bool := pre.data.isPrefixOf s.data

/-- Helper for `str.split()` with no separator: split on whitespace runs,
    dropping empty pieces. -/
def wsSplitAux : List Char → List Char → List (List Char)
  | [], acc => if acc.isEmpty then [] else [acc.reverse]
  | c :: rest, acc =>
    if c.isWhitespace then
      if acc.isEmpty then wsSplitAux rest [] else acc.reverse :: wsSplitAux rest []
    else wsSplitAux rest (c :: acc)

/-- Python `s.split()` (no separator argument). -/
def pySplitWs (s : String) : List String := (wsSplitAux s.data []).map String.mk

/-- Python `s.isdigit()`: nonempty and every character a digit. -/
def pyIsDigit (s : String) : Bool := !s.data.isEmpty && s.data.all Char.isDigit

/-- Helper for `f.readlines()`: cut after each newline, keeping the newline
    characters, dropping a trailing empty piece. -/
def readlinesAux : List Char → List Char → List String
  | [], acc => if acc.isEmpty then [] else [String.mk acc.reverse]
  | c :: rest, acc =>
    if c = '\n' then String.mk (c :: acc).reverse :: readlinesAux rest []
    else readlinesAux rest (c :: acc)

/-- Python `f.readlines()` on the file content. -/
def pyReadlines (s : String) : List String := readlinesAux s.data []

/-- Helper for `s.split(sep)` with a single-character newline separator. -/
def splitNlAux : List Char → List Char → List String
  | [], acc => [String.mk acc.reverse]
  | c :: rest, acc =>
    if c = '\n' then String.mk acc.reverse :: splitNlAux rest []
    else splitNlAux rest (c :: acc)

/-- Python `s.split('\n')`. -/
def pySplitLines (s : String) : List String := splitNlAux s.data []

/-- Python `"".join(l)`. -/
def strJoin : List String → String
  | [] => ""
  | s :: rest => s ++ strJoin rest

/-- Python `sep.join(l)`. -/
def strIntercalate (sep : String) : List String → String
  | [] => ""
  | [s] => s
  | s :: rest => s ++ sep ++ strIntercalate sep rest

/-! ## Keyword extraction (`tools.py`, `search_file_content`, lines 55-65) -/

/-- The month-abbreviation whitelist from `search_file_content`. -/
def monthNames : List String :=
  ["jan", "feb", "mar", "apr", "may", "jun", "jul", "aug", "sep", "oct", "nov", "dec"]

/-- The per-token normalisation the source applies before the retain test:
    `kw.lower().strip().rstrip(',')`. -/
def normTok (kw : String) : String := rstripCommas (pyStrip (pyLower kw))

/-- The retain test of the source: `kw.isdigit() or len(kw) > 2 or kw in [months]`. -/
def retainTest (kw : String) : Bool :=
  pyIsDigit kw || decide (2 < kw.length) || monthNames.contains kw

/-- Keyword extraction from `search_file_content`: split the query on whitespace,
    normalise each token, keep the normalised token iff it passes `retainTest`. -/
def extractKeywords (query : String) : List String :=
  (pySplitWs query).filterMap (fun kw0 =>
    if retainTest (normTok kw0) then some (normTok kw0) else none)

/-- The effective keyword list: `if not keywords: keywords = [query.lower()]`. -/
def effectiveKeywords (query : String) : List String :=
  if (extractKeywords query).isEmpty then [pyLower query] else extractKeywords query

/-- Modelled from the claim's words for C2 (not from the source): retain a
    whitespace token (lowercased, per the claim's own example) iff it is purely
    numeric, longer than 2 characters, or a month abbreviation. -/
def claimedKeywords (query : String) : List String :=
  ((pySplitWs query).map pyLower).filter retainTest

/-! ## `search_file_content` (`tools.py`, lines 39-113)

The grouping loop keeps `last_line = -999` as a sentinel, compares with the
file's line numbers using Python integers, and indexes the line list with
Python semantics (a negative index wraps from the end; an index out of range
raises `IndexError`, which the surrounding `try` turns into an error string).
The embedding therefore uses `Int` for the loop variable and models indexing
with `Except`. -/

/-- Python `lines[j]` for an `Int` index: negative indices wrap from the end,
    out-of-range raises `IndexError("list index out of range")`. -/
def pyIndex (lines : List String) (j : Int) : Except String String :=
  let i : Int := if j < 0 then j + lines.length else j
  if 0 ≤ i ∧ i < lines.length then .ok (lines.getD i.toNat "")
  else .error "list index out of range"

/-- Python `range(lo, hi)` over integers. -/
def intRange (lo hi : Int) : List Int :=
  (List.range (hi - lo).toNat).map (fun k : Nat => lo + (k : Int))

/-- The "extend current section" inner loop:
    `for j in range(last_line+1, line_num+context_lines+1):
       if j < len(lines) and j > last_line + context_lines: append(lines[j])`. -/
def extendLoop (lines : List String) (bound : Int) : List Int → Except String (List String)
  | [] => .ok []
  | j :: rest =>
    if j < (lines.length : Int) ∧ bound < j then
      match pyIndex lines j with
      | .error e => .error e
      | .ok s =>
        match extendLoop lines bound rest with
        | .error e => .error e
        | .ok tl => .ok (s :: tl)
    else extendLoop lines bound rest

/-- The "start new section" inner loop:
    `start = max(0, line_num - context_lines)`;
    `for j in range(start, line_num+context_lines+1): if j < len(lines): append(lines[j])`. -/
def newSectionSeg (lines : List String) (i c : Nat) : List String :=
  (intRange (max 0 ((i : Int) - c)) ((i : Int) + c + 1)).filterMap
    (fun j => if j < (lines.length : Int) then lines.get? j.toNat else none)

/-- Mutable state of the grouping loop: completed (joined) sections, the
    current section, and `last_line`. -/
structure SFCState where
  sections : List String
  current : List String
  lastLine : Int

/-- One iteration of `for line_num in matched_line_numbers`. -/
def sfcStep (lines : List String) (c : Nat) (st : SFCState) (i : Nat) : Except String SFCState :=
  if (i : Int) - st.lastLine > (c : Int) * 2 then
    .ok { sections := if st.current.isEmpty then st.sections
                      else st.sections ++ [strJoin st.current],
          current := newSectionSeg lines i c,
          lastLine := (i : Int) }
  else
    match extendLoop lines (st.lastLine + (c : Int)) (intRange (st.lastLine + 1) ((i : Int) + c + 1)) with
    | .error e => .error e
    | .ok seg => .ok { st with current := st.current ++ seg, lastLine := (i : Int) }

/-- The whole grouping loop over the sorted matched line numbers. -/
def sfcLoop (lines : List String) (c : Nat) : List Nat → SFCState → Except String SFCState
  | [], st => .ok st
  | i :: rest, st =>
    match sfcStep lines c st i with
    | .error e => .error e
    | .ok st' => sfcLoop lines c rest st'

/-- `if current_section: matched_sections.append("".join(current_section))`
    after the loop. -/
def sfcFinalize (st : SFCState) : List String :=
  if st.current.isEmpty then st.sections else st.sections ++ [strJoin st.current]

/-- Does a line match, i.e. `any(keyword in line.lower() for keyword in keywords)`. -/
def lineMatches (keywords : List String) (line : String) : Bool :=
  keywords.any (fun k => hasSubstr (pyLower line) k)

/-- `sorted(matched_line_numbers)`: the ascending list of matching line indices. -/
def matchedIdx (lines : List String) (query : String) : List Nat :=
  (List.range lines.length).filter
    (fun i => lineMatches (effectiveKeywords query) (lines.getD i ""))

/-- `search_file_content(file_path, query, context_lines)` after the file has
    been read into `lines` (`fname` is `file_path.name`). -/
def searchFileContent (fname : String) (lines : List String) (query : String) (c : Nat) : String :=
  match sfcLoop lines c (matchedIdx lines query) ⟨[], [], -999⟩ with
  | .error e => "Error searching file: " ++ e
  | .ok st =>
    let sections := sfcFinalize st
    if sections.isEmpty then
      "No relevant information found in " ++ fname ++ " for query: " ++ query
    else strIntercalate "\n---\n" sections

/-! ## Specification-side description of the grouping (for claim C1) -/

/-- Claim-side grouping of the sorted match indices into runs, given the gap
    threshold `g = 2 * context_lines`: extend the current run `(f, last)` while
    the gap to the next match is at most `g`, otherwise close it and start a
    new run. Returns the (first, last) bounds of every run. -/
def runsFold (g : Nat) : List Nat → Nat → Nat → List (Nat × Nat)
  | [], f, last => [(f, last)]
  | i :: rest, f, last =>
    if i - last ≤ g then runsFold g rest f i
    else (f, last) :: runsFold g rest i i

/-- Run bounds of a sorted match list. -/
def runBounds (g : Nat) : List Nat → List (Nat × Nat)
  | [] => []
  | i :: rest => runsFold g rest i i

/-- The contiguous block of lines with indices in `[a, b)` (clamped to the file). -/
def sliceOf (l : List String) (a b : Nat) : List String := (l.drop a).take (b - a)

/-- The claim's section for a run: the lines from `context_lines` before its
    first match through `context_lines` after its last match, clamped, joined. -/
def secString (lines : List String) (c : Nat) (p : Nat × Nat) : String :=
  strJoin (sliceOf lines (p.1 - c) (p.2 + c + 1))

/-- The claim's list of sections for a sorted match list. -/
def claimSections (lines : List String) (c : Nat) (matched : List Nat) : List String :=
  (runBounds (c * 2) matched).map (secString lines c)

/-! ## Category directories and the five tools (`tools.py`, lines 21-313)

The file system is modelled per category as `Option (List TxtFile)`:
`none` when the directory does not exist, otherwise the `*.txt` listing in
directory-enumeration order. -/

/-- A `.txt` file: its name and its full content. -/
structure TxtFile where
  name : String
  content : String

/-- `get_all_txt_files_in_category`: `[]` when the directory does not exist,
    otherwise the glob listing. -/
def getAllTxtFiles (dir : Option (List TxtFile)) : List TxtFile :=
  match dir with
  | none => []
  | some fs => fs

/-- `read_file_content` on an in-store file (the success path of `open`/`read`). -/
def readFileContent (f : TxtFile) : String := f.content

/-- The per-file aggregation step shared by the three generic search tools:
    keep the result unless it reports `"No relevant information found"`, and
    prefix the source file name. -/
def aggregateStep (c : Nat) (query : String) (f : TxtFile) : Option String :=
  let result := searchFileContent f.name (pyReadlines f.content) query c
  if hasSubstr result "No relevant information found" then none
  else some ("From " ++ f.name ++ ":\n" ++ result)

/-- `search_university_info(query)` over the Administrative directory. -/
def searchUniversityInfo (dir : Option (List TxtFile)) (query : String) : String :=
  let txtFiles := getAllTxtFiles dir
  if txtFiles.isEmpty then
    "No administrative information files found. The related data is not present in the system."
  else
    let results := txtFiles.filterMap (aggregateStep 5 query)
    if results.isEmpty then
      "No relevant administrative information found for query: " ++ query ++
        ". The related data is not present in the system."
    else strIntercalate "\n\n---\n\n" results

/-- `search_academic_calendar(query)` over the Academic directory. -/
def searchAcademicCalendar (dir : Option (List TxtFile)) (query : String) : String :=
  let txtFiles := getAllTxtFiles dir
  if txtFiles.isEmpty then
    "No academic calendar files found. The related data is not present in the system."
  else
    let results := txtFiles.filterMap (aggregateStep 3 query)
    if results.isEmpty then
      "No relevant academic information found for query: " ++ query ++
        ". The related data is not present in the system."
    else strIntercalate "\n\n---\n\n" results

/-- The per-file step of `check_if_date_is_holiday`: no filename prefix. -/
def holidayStep (dateStr : String) (f : TxtFile) : Option String :=
  let result := searchFileContent f.name (pyReadlines f.content) (dateStr ++ " holiday") 2
  if hasSubstr result "No relevant information found" then none
  else some result

/-- `check_if_date_is_holiday(date_str)` over the Academic directory. -/
def checkIfDateIsHoliday (dir : Option (List TxtFile)) (dateStr : String) : String :=
  let txtFiles := getAllTxtFiles dir
  if txtFiles.isEmpty then
    "No academic calendar files found. The related data is not present in the system."
  else
    let results := txtFiles.filterMap (holidayStep dateStr)
    if results.isEmpty then
      "No holiday information found for " ++ dateStr ++
        ". The related data is not present in the system."
    else strIntercalate "\n\n---\n\n" results

/-- `search_educational_resources(query)` over the Educational directory. -/
def searchEducationalResources (dir : Option (List TxtFile)) (query : String) : String :=
  let txtFiles := getAllTxtFiles dir
  if txtFiles.isEmpty then
    "No educational resource files found. The related data is not present in the system."
  else
    let results := txtFiles.filterMap (aggregateStep 5 query)
    if results.isEmpty then
      "No relevant educational resources found for query: " ++ query ++
        ". The related data is not present in the system."
    else strIntercalate "\n\n---\n\n" results

/-! ## `get_university_contact_info` (`tools.py`, lines 227-267) -/

/-- The scanning loop of `get_university_contact_info` over the lines of one
    file, collecting the `[Contact Information]` section. The flag is
    `in_contact`; a line containing the marker flips it and is not collected;
    once in the section, a line whose stripped text starts with `[` stops the
    scan (`break`); any other line is collected. -/
def contactLoop : List String → Bool → List String
  | [], _ => []
  | line :: rest, inContact =>
    if hasSubstr line "[Contact Information]" then contactLoop rest true
    else if inContact then
      if pyStartsWith (pyStrip line) "[" then []
      else line :: contactLoop rest true
    else contactLoop rest false

/-- The collected `contact_section` of one file's content. -/
def contactSectionLines (content : String) : List String :=
  contactLoop (pySplitLines content) false

/-- The single quote character, used in the not-found message of
    `get_university_contact_info`. -/
def sqChar : String := String.singleton (Char.ofNat 39)

/-- The per-file body of the `for file_path in txt_files` loop: `some` of the
    returned string when the department is found in this file's contact text,
    `none` when the loop moves on to the next file. -/
def fileContactResult (department : String) (content : String) : Option String :=
  let cs := contactSectionLines content
  let contactText := strIntercalate "\n" cs
  if hasSubstr (pyLower contactText) (pyLower department) then
    some (strIntercalate "\n"
      (cs.filter (fun line => hasSubstr (pyLower line) (pyLower department))))
  else none

/-- The file loop of `get_university_contact_info` with its early `return`. -/
def contactGo (department : String) : List TxtFile → String
  | [] => "Contact information for " ++ sqChar ++ department ++ sqChar ++
      " not found. The related data is not present in the system."
  | f :: rest =>
    match fileContactResult department (readFileContent f) with
    | some s => s
    | none => contactGo department rest

/-- `get_university_contact_info(department)` over the Administrative directory. -/
def getUniversityContactInfo (dir : Option (List TxtFile)) (department : String) : String :=
  let txtFiles := getAllTxtFiles dir
  if txtFiles.isEmpty then
    "No administrative files found. The related data is not present in the system."
  else contactGo department txtFiles

/-! ## The tool set (`tools.py`, `available_tools`) -/

/-- The category directories visible to the tools. -/
structure FS where
  academic : Option (List TxtFile)
  administrative : Option (List TxtFile)
  educational : Option (List TxtFile)

/-- One registered tool: how to run it on the file system and one string
    input, and which category directory it reads. -/
structure ToolSpec where
  run : FS → String → String
  cat : FS → Option (List TxtFile)

/-- `available_tools`, in source order, each paired with its category. -/
def availableTools : List ToolSpec :=
  [⟨fun fs q => searchUniversityInfo fs.administrative q, fun fs => fs.administrative⟩,
   ⟨fun fs q => searchAcademicCalendar fs.academic q, fun fs => fs.academic⟩,
   ⟨fun fs q => checkIfDateIsHoliday fs.academic q, fun fs => fs.academic⟩,
   ⟨fun fs q => getUniversityContactInfo fs.administrative q, fun fs => fs.administrative⟩,
   ⟨fun fs q => searchEducationalResources fs.educational q, fun fs => fs.educational⟩]

/-! ## Provider selector (`llm_provider.py`) -/

/-- Python truthiness of a possibly-absent string (`None` and `""` are falsy). -/
def pyTruthy : Option String → Bool
  | none => false
  | some s => !s.isEmpty

/-- Python `a or b` on possibly-absent strings. -/
def pyOr (a b : Option String) : Option String := if pyTruthy a then a else b

/-- Python `a or d` with a literal string default. -/
def pyOrD (a : Option String) (d : String) : String := if pyTruthy a then a.getD "" else d

/-- The operator-configured environment credentials (`os.getenv`). -/
structure EnvVars where
  openaiKey : Option String
  googleKey : Option String

/-- The `LLMProvider._api_keys` dictionary (user-supplied, request-scoped
    values; `none` where the dictionary holds `None`). -/
structure ApiKeys where
  openai : Option String
  openaiModel : Option String
  gemini : Option String
  geminiModel : Option String
  ollamaUrl : Option String
  ollamaModel : Option String

/-- A configured chat model, as returned by the selector. -/
inductive LLM
  | openai (model key : String)
  | gemini (model key : String)
  | ollama (url model : String)
deriving DecidableEq

/-- Whether the external client constructors succeed. Building a remote client
    (`ChatOpenAI(...)` / `ChatGoogleGenerativeAI(...)`) is an external call
    that may raise; `_get_auto_provider` wraps each attempt in `try/except`,
    so the possibility is modelled by this oracle. -/
structure CtorBehavior where
  openaiOk : Bool
  geminiOk : Bool

/-- `LLMProvider._get_openai`: user-dictionary key `or` environment key,
    raise `ValueError` when neither is truthy, else build the client. -/
def getOpenai (env : EnvVars) (ks : ApiKeys) (cb : CtorBehavior) : Except String LLM :=
  let apiKey := pyOr ks.openai env.openaiKey
  if !pyTruthy apiKey then .error "OPENAI_API_KEY not configured"
  else if cb.openaiOk then .ok (.openai (pyOrD ks.openaiModel "gpt-4") (apiKey.getD ""))
  else .error "client construction raised"

/-- `LLMProvider._get_gemini`. -/
def getGemini (env : EnvVars) (ks : ApiKeys) (cb : CtorBehavior) : Except String LLM :=
  let apiKey := pyOr ks.gemini env.googleKey
  if !pyTruthy apiKey then .error "GOOGLE_API_KEY not configured"
  else if cb.geminiOk then .ok (.gemini (pyOrD ks.geminiModel "gemini-2.0-flash-exp") (apiKey.getD ""))
  else .error "client construction raised"

/-- `LLMProvider._get_ollama`: no credential, never raises. -/
def getOllama (ks : ApiKeys) : LLM :=
  .ollama (pyOrD ks.ollamaUrl "http://localhost:11434") (pyOrD ks.ollamaModel "llama3.1:8b")

/-- `LLMProvider._get_auto_provider`: try environment-triggered OpenAI, then
    user-key-triggered OpenAI, then environment-triggered Gemini, then
    user-key-triggered Gemini, each raising attempt caught, finally Ollama. -/
def getAutoProvider (env : EnvVars) (ks : ApiKeys) (cb : CtorBehavior) : LLM :=
  match (if pyTruthy env.openaiKey then getOpenai env ks cb else .error "skip") with
  | .ok m => m
  | .error _ =>
  match (if pyTruthy ks.openai then getOpenai env ks cb else .error "skip") with
  | .ok m => m
  | .error _ =>
  match (if pyTruthy env.googleKey then getGemini env ks cb else .error "skip") with
  | .ok m => m
  | .error _ =>
  match (if pyTruthy ks.gemini then getGemini env ks cb else .error "skip") with
  | .ok m => m
  | .error _ => getOllama ks

/-- Specification-side description of the amended resolution: a remote
    provider is selected iff some credential (environment or user) for it is
    configured and its client construction succeeds, OpenAI before Gemini,
    the user-supplied key taking precedence over the environment key inside
    an attempt; otherwise the local provider. -/
def autoSpec (env : EnvVars) (ks : ApiKeys) (cb : CtorBehavior) : LLM :=
  if (pyTruthy env.openaiKey || pyTruthy ks.openai) && cb.openaiOk then
    .openai (pyOrD ks.openaiModel "gpt-4") ((pyOr ks.openai env.openaiKey).getD "")
  else if (pyTruthy env.googleKey || pyTruthy ks.gemini) && cb.geminiOk then
    .gemini (pyOrD ks.geminiModel "gemini-2.0-flash-exp") ((pyOr ks.gemini env.googleKey).getD "")
  else getOllama ks

/-- `LLMProvider.supports_tools`: hosted providers support tools; for Ollama
    the configured model name must avoid a denylist of substrings; `auto` is
    optimistically assumed tool-capable. -/
def supportsTools (currentProvider : String) (ks : ApiKeys) : Bool :=
  let p := pyLower currentProvider
  if p == "openai" then true
  else if p == "gemini" then true
  else if p == "ollama" then
    let model := pyLower (ks.ollamaModel.getD "")
    !(["gemma", "phi", "tinyllama", "stablelm"].any (fun nm => hasSubstr model nm))
  else if p == "auto" then true
  else false

/-! ## Agent transition (`graph.py`, `should_continue`, lines 107-124) -/

/-- Truthiness of `hasattr(last_message, "tool_calls") and last_message.tool_calls`:
    `none` models a message without the attribute; an empty list is falsy. -/
def hasToolCalls (toolCalls : Option (List String)) : Bool :=
  match toolCalls with
  | some l => !l.isEmpty
  | none => false

/-- `should_continue`: `"end"` when the provider does not support tools,
    otherwise `"tools"` iff the last message carries tool calls. -/
def shouldContinue (currentProvider : String) (ks : ApiKeys)
    (lastToolCalls : Option (List String)) : String :=
  if !(supportsTools currentProvider ks) then "end"
  else if hasToolCalls lastToolCalls then "tools"
  else "end"

/-! ## Streaming handler (`chat_router.py`, `stream_response`, lines 202-241)

The inner async generator is embedded as a recursion over the events yielded
by `agent_graph.astream_events`; `raises = some msg` means the stream raises
with message `msg` after the listed events (a failure mid-response), which the
`except` clause turns into an `error` frame. The second component of the
result is the message persisted to the conversation store (`None` when nothing
is committed). -/

/-- One event from the agent stream. -/
inductive StreamEvent
  | chatModelStream (content : String)
  | toolStart (name : String)
  | other (kind : String)

/-- One server-sent frame. -/
inductive Frame
  | content (data : String)
  | status (data : String)
  | complete (chatId : String)
  | error (data : String)
deriving DecidableEq

/-- The body of `stream_response`, carrying the accumulated answer and the
    frames emitted so far. -/
def runStream (chatId userMsg : String) (events : List StreamEvent)
    (raises : Option String) (acc : String) (frames : List Frame) :
    List Frame × Option (String × String) :=
  match events with
  | .chatModelStream c :: rest =>
    if c.isEmpty then runStream chatId userMsg rest raises acc frames
    else runStream chatId userMsg rest raises (acc ++ c) (frames ++ [Frame.content c])
  | .toolStart n :: rest =>
    runStream chatId userMsg rest raises acc
      (frames ++ [Frame.status ("Searching " ++ n ++ "...")])
  | .other _ :: rest => runStream chatId userMsg rest raises acc frames
  | [] =>
    match raises with
    | some e => (frames ++ [Frame.error ("Error: " ++ e)], none)
    | none => (frames ++ [Frame.complete chatId], some (userMsg, acc))

/-- `stream_response` itself: accumulator and frame list start empty. -/
def streamResponse (chatId userMsg : String) (events : List StreamEvent)
    (raises : Option String) : List Frame × Option (String × String) :=
  runStream chatId userMsg events raises "" []

/-- The frames a list of events contributes, for stating C8. -/
def eventFrames : List StreamEvent → List Frame
  | [] => []
  | .chatModelStream c :: rest =>
    if c.isEmpty then eventFrames rest else Frame.content c :: eventFrames rest
  | .toolStart n :: rest => Frame.status ("Searching " ++ n ++ "...") :: eventFrames rest
  | .other _ :: rest => eventFrames rest

/-- The answer accumulated from the content deltas of a list of events. -/
def accumContent : List StreamEvent → String
  | [] => ""
  | .chatModelStream c :: rest => if c.isEmpty then accumContent rest else c ++ accumContent rest
  | .toolStart _ :: rest => accumContent rest
  | .other _ :: rest => accumContent rest

/-! ## Lemmas about the grouping machinery -/

lemma intRange_natCast (a b : Nat) :
    intRange (a : Int) (b : Int) = (List.range' a (b - a)).map (fun n : Nat => (n : Int)) := by
  unfold intRange
  have h : ((b : Int) - a).toNat = b - a := by omega
  rw [h, List.range'_eq_map_range, List.map_map]
  apply List.map_congr_left
  intro k _
  simp only [Function.comp_apply]
  push_cast
  ring

lemma drop_nil_of_le (l : List String) {a : Nat} (h : l.length ≤ a) : l.drop a = [] :=
  List.drop_eq_nil_of_le h

lemma range'_filterMap_get? (l : List String) :
    ∀ (k a : Nat), (List.range' a k).filterMap l.get? = (l.drop a).take k := by
  intro k
  induction k with
  | zero => intro a; simp
  | succ k ih =>
    intro a
    rw [List.range'_succ, List.filterMap_cons]
    by_cases h : a < l.length
    · rw [List.get?_eq_get h, ih, List.drop_eq_getElem_cons h, List.take_succ_cons,
        List.get_eq_getElem]
    · rw [List.get?_len_le (show l.length ≤ a by omega)]
      simp only [ih, drop_nil_of_le l (show l.length ≤ a by omega),
        drop_nil_of_le l (show l.length ≤ a + 1 by omega), List.take_nil]

lemma extendLoop_map_cast (l : List String) (b : Nat) :
    ∀ (k a : Nat), extendLoop l (b : Int) ((List.range' a k).map (fun n : Nat => (n : Int)))
      = .ok ((List.range' a k).filterMap
          (fun j => if j < l.length ∧ b < j then l.get? j else none)) := by
  intro k
  induction k with
  | zero => intro a; simp [extendLoop]
  | succ k ih =>
    intro a
    rw [List.range'_succ, List.map_cons, List.filterMap_cons]
    by_cases h : a < l.length ∧ b < a
    · have hgI : (a : Int) < (l.length : Int) ∧ (b : Int) < (a : Int) := by
        constructor <;> [exact_mod_cast h.1; exact_mod_cast h.2]
      have hpy : pyIndex l (a : Int) = .ok (l.getD a "") := by
        unfold pyIndex
        rw [if_neg (by omega : ¬ (a : Int) < 0)]
        rw [if_pos (by constructor <;> omega)]
        simp
      have hgetD : l.getD a "" = l.get ⟨a, h.1⟩ := by
        rw [List.getD_eq_getElem?_getD, List.getElem?_eq_getElem h.1]
        simp
      rw [extendLoop, if_pos hgI, hpy, ih, if_pos h, List.get?_eq_get h.1, hgetD]
    · have hgI : ¬ ((a : Int) < (l.length : Int) ∧ (b : Int) < (a : Int)) := by
        intro hc
        exact h ⟨by exact_mod_cast hc.1, by exact_mod_cast hc.2⟩
      rw [extendLoop, if_neg hgI, ih, if_neg h]

lemma filterMap_guard_slice (l : List String) (a k b : Nat)
    (hab : a ≤ b + 1) (hbk : b + 1 ≤ a + k) :
    (List.range' a k).filterMap (fun j => if j < l.length ∧ b < j then l.get? j else none)
      = sliceOf l (b + 1) (a + k) := by
  have h1 : a + 1 * (b + 1 - a) = b + 1 := by omega
  have h2 : (a + k - (b + 1)) + (b + 1 - a) = k := by omega
  have hsplit := List.range'_append a (b + 1 - a) (a + k - (b + 1)) 1
  rw [h1] at hsplit
  rw [h2] at hsplit
  rw [← hsplit, List.filterMap_append]
  have hleft : (List.range' a (b + 1 - a)).filterMap
      (fun j => if j < l.length ∧ b < j then l.get? j else none) = [] := by
    rw [List.filterMap_eq_nil_iff]
    intro j hj
    have := List.mem_range'_1.mp hj
    rw [if_neg (by omega)]
  have hright : (List.range' (b + 1) (a + k - (b + 1))).filterMap
      (fun j => if j < l.length ∧ b < j then l.get? j else none)
      = (List.range' (b + 1) (a + k - (b + 1))).filterMap l.get? := by
    apply List.filterMap_congr
    intro j hj
    have hmem := List.mem_range'_1.mp hj
    by_cases hjl : j < l.length
    · rw [if_pos ⟨hjl, by omega⟩]
    · rw [if_neg (by omega), List.get?_len_le (by omega)]
  rw [hleft, hright, range'_filterMap_get?, List.nil_append]
  rfl

lemma extendLoop_slice (l : List String) (last i c : Nat) (hli : last < i) :
    extendLoop l ((last : Int) + c) (intRange ((last : Int) + 1) ((i : Int) + c + 1))
      = .ok (sliceOf l (last + c + 1) (i + c + 1)) := by
  have h1 : ((last : Int) + 1) = ((last + 1 : Nat) : Int) := by push_cast; ring
  have h2 : ((i : Int) + c + 1) = ((i + c + 1 : Nat) : Int) := by push_cast; ring
  have h3 : ((last : Int) + c) = ((last + c : Nat) : Int) := by push_cast; ring
  rw [h1, h2, h3, intRange_natCast, extendLoop_map_cast,
    filterMap_guard_slice l (last + 1) ((i + c + 1) - (last + 1)) (last + c)
      (by omega) (by omega)]
  have h4 : last + 1 + (i + c + 1 - (last + 1)) = i + c + 1 := by omega
  rw [h4]

lemma newSectionSeg_eq (l : List String) (i c : Nat) :
    newSectionSeg l i c = sliceOf l (i - c) (i + c + 1) := by
  unfold newSectionSeg
  have hmax : max 0 ((i : Int) - c) = ((i - c : Nat) : Int) := by
    rcases Nat.le_total c i with h | h
    · rw [max_eq_right (by omega)]; omega
    · rw [max_eq_left (by omega)]; omega
  have hcast : ((i : Int) + c + 1) = ((i + c + 1 : Nat) : Int) := by push_cast; ring
  rw [hmax, hcast, intRange_natCast, List.filterMap_map]
  have hcongr : ∀ j ∈ List.range' (i - c) ((i + c + 1) - (i - c)),
      ((fun j : Int => if j < (l.length : Int) then l.get? j.toNat else none) ∘
        (fun n : Nat => (n : Int))) j = l.get? j := by
    intro j _
    simp only [Function.comp_apply]
    by_cases hj : j < l.length
    · rw [if_pos (by exact_mod_cast hj)]
      simp
    · rw [if_neg (by exact_mod_cast hj), List.get?_len_le (by omega)]
  rw [List.filterMap_congr hcongr, range'_filterMap_get?]
  rfl

lemma sliceOf_append (l : List String) (a b d : Nat) (hab : a ≤ b) (hbd : b ≤ d) :
    sliceOf l a b ++ sliceOf l b d = sliceOf l a d := by
  unfold sliceOf
  have h1 : d - a = (b - a) + (d - b) := by omega
  rw [h1, List.take_add]
  congr 2
  rw [List.drop_drop]
  congr 1
  omega

lemma sliceOf_ne_nil (l : List String) (a b : Nat) (ha : a < l.length) (hb : a < b) :
    sliceOf l a b ≠ [] := by
  unfold sliceOf
  intro h
  have hlen := congrArg List.length h
  simp only [List.length_take, List.length_drop, List.length_nil] at hlen
  omega

lemma runsFold_ne_nil (g : Nat) : ∀ (l : List Nat) (f last : Nat), runsFold g l f last ≠ [] := by
  intro l
  induction l with
  | nil => intro f last; simp [runsFold]
  | cons i rest ih =>
    intro f last
    unfold runsFold
    split
    · exact ih f i
    · simp

lemma runsFold_nil (g f last : Nat) : runsFold g [] f last = [(f, last)] := rfl

lemma runsFold_cons (g : Nat) (i : Nat) (rest : List Nat) (f last : Nat) :
    runsFold g (i :: rest) f last
      = if i - last ≤ g then runsFold g rest f i else (f, last) :: runsFold g rest i i := rfl

lemma sfcLoop_run (lines : List String) (c : Nat) :
    ∀ (rest : List Nat) (f last : Nat) (S : List String),
      List.Chain' (· < ·) (last :: rest) →
      (∀ x ∈ last :: rest, x < lines.length) →
      f ≤ last →
      ∃ st', sfcLoop lines c rest ⟨S, sliceOf lines (f - c) (last + c + 1), (last : Int)⟩
          = .ok st'
        ∧ sfcFinalize st' = S ++ (runsFold (c * 2) rest f last).map (secString lines c) := by
  intro rest
  induction rest with
  | nil =>
    intro f last S _ hb hf
    refine ⟨_, rfl, ?_⟩
    have hne : sliceOf lines (f - c) (last + c + 1) ≠ [] :=
      sliceOf_ne_nil lines (f - c) (last + c + 1)
        (lt_of_le_of_lt (by omega) (hb last (by simp))) (by omega)
    unfold sfcFinalize runsFold secString
    simp only [List.isEmpty_iff, if_neg hne, List.map_cons, List.map_nil]
  | cons i rest ih =>
    intro f last S hchain hb hf
    have hlt : last < i := (List.chain'_cons.mp hchain).1
    have hchain' : List.Chain' (· < ·) (i :: rest) := (List.chain'_cons.mp hchain).2
    have hb' : ∀ x ∈ i :: rest, x < lines.length := by
      intro x hx
      exact hb x (by simp only [List.mem_cons] at hx ⊢; tauto)
    have hcur_ne : sliceOf lines (f - c) (last + c + 1) ≠ [] :=
      sliceOf_ne_nil lines (f - c) (last + c + 1)
        (lt_of_le_of_lt (by omega) (hb last (by simp))) (by omega)
    by_cases hgap : (i : Int) - (last : Int) > (c : Int) * 2
    · have hstep : sfcStep lines c ⟨S, sliceOf lines (f - c) (last + c + 1), (last : Int)⟩ i
          = .ok ⟨S ++ [strJoin (sliceOf lines (f - c) (last + c + 1))],
              sliceOf lines (i - c) (i + c + 1), (i : Int)⟩ := by
        unfold sfcStep
        rw [if_pos hgap, newSectionSeg_eq]
        simp only [List.isEmpty_iff, if_neg hcur_ne]
      obtain ⟨st', heq, hfin⟩ :=
        ih i i (S ++ [strJoin (sliceOf lines (f - c) (last + c + 1))]) hchain' hb' le_rfl
      refine ⟨st', ?_, ?_⟩
      · unfold sfcLoop
        rw [hstep]
        exact heq
      · rw [hfin]
        have hgapN : ¬ (i - last ≤ c * 2) := by omega
        rw [runsFold_cons, if_neg hgapN, List.map_cons, List.append_assoc]
        rfl
    · have hgapN : i - last ≤ c * 2 := by omega
      have hstep : sfcStep lines c ⟨S, sliceOf lines (f - c) (last + c + 1), (last : Int)⟩ i
          = .ok ⟨S, sliceOf lines (f - c) (i + c + 1), (i : Int)⟩ := by
        unfold sfcStep
        rw [if_neg hgap, extendLoop_slice lines last i c hlt]
        dsimp only
        rw [sliceOf_append lines (f - c) (last + c + 1) (i + c + 1) (by omega) (by omega)]
      obtain ⟨st', heq, hfin⟩ := ih f i S hchain' hb' (by omega)
      refine ⟨st', ?_, ?_⟩
      · unfold sfcLoop
        rw [hstep]
        exact heq
      · rw [hfin, runsFold_cons, if_pos hgapN]

lemma matchedIdx_mem (lines : List String) (query : String) (i : Nat) :
    i ∈ matchedIdx lines query
      ↔ i < lines.length ∧ lineMatches (effectiveKeywords query) (lines.getD i "") = true := by
  unfold matchedIdx
  rw [List.mem_filter, List.mem_range]

lemma matchedIdx_pairwise (lines : List String) (query : String) :
    List.Pairwise (· < ·) (matchedIdx lines query) :=
  List.Pairwise.filter _ (List.pairwise_lt_range lines.length)

lemma searchFileContent_claim (fname : String) (lines : List String) (query : String) (c : Nat)
    (hc : c ≤ 499) (hm : matchedIdx lines query ≠ []) :
    searchFileContent fname lines query c
      = strIntercalate "\n---\n" (claimSections lines c (matchedIdx lines query)) := by
  obtain ⟨m, ms, hms⟩ : ∃ m ms, matchedIdx lines query = m :: ms := by
    cases h : matchedIdx lines query with
    | nil => exact absurd h hm
    | cons a b => exact ⟨a, b, rfl⟩
  have hchain : List.Chain' (· < ·) (m :: ms) := by
    rw [← hms]
    exact List.chain'_iff_pairwise.mpr (matchedIdx_pairwise lines query)
  have hbnd : ∀ x ∈ m :: ms, x < lines.length := by
    rw [← hms]
    intro x hx
    exact ((matchedIdx_mem lines query x).mp hx).1
  have hstep1 : sfcStep lines c ⟨[], [], -999⟩ m
      = .ok ⟨[], sliceOf lines (m - c) (m + c + 1), (m : Int)⟩ := by
    unfold sfcStep
    rw [if_pos (show (m : Int) - (-999 : Int) > (c : Int) * 2 by omega), newSectionSeg_eq]
    dsimp only
    simp only [List.isEmpty_nil, if_pos]
  obtain ⟨st', heq, hfin⟩ := sfcLoop_run lines c ms m m [] hchain hbnd le_rfl
  unfold searchFileContent
  rw [hms]
  unfold sfcLoop
  rw [hstep1]
  dsimp only
  rw [heq]
  dsimp only
  rw [hfin]
  have hne : (runsFold (c * 2) ms m m).map (secString lines c) ≠ [] := by
    intro h
    exact runsFold_ne_nil (c * 2) ms m m (List.map_eq_nil_iff.mp h)
  rw [List.nil_append]
  simp only [List.isEmpty_iff, if_neg hne]
  rfl

/-! ## Helper lemmas for the remaining claims -/

lemma filterMap_if_map_filter {α β : Type} (f : α → β) (p : β → Bool) :
    ∀ l : List α,
      l.filterMap (fun a => if p (f a) then some (f a) else none) = (l.map f).filter p := by
  intro l
  induction l with
  | nil => rfl
  | cons a t ih =>
    rw [List.filterMap_cons, List.map_cons, List.filter_cons]
    by_cases h : p (f a)
    · rw [if_pos h, if_pos h, ih]
    · rw [if_neg h, if_neg h, ih]

lemma strData_append (a b : String) : (a ++ b).data = a.data ++ b.data := rfl

lemma strJoin_readlinesAux :
    ∀ (cs acc : List Char), (strJoin (readlinesAux cs acc)).data = acc.reverse ++ cs := by
  intro cs
  induction cs with
  | nil =>
    intro acc
    unfold readlinesAux
    cases acc with
    | nil => rfl
    | cons a t =>
      rw [if_neg (by simp)]
      show (String.mk (a :: t).reverse ++ "").data = (a :: t).reverse ++ []
      rw [strData_append]
  | cons c rest ih =>
    intro acc
    unfold readlinesAux
    by_cases h : c = '\n'
    · rw [if_pos h]
      show (String.mk (c :: acc).reverse ++ strJoin (readlinesAux rest [])).data
        = acc.reverse ++ c :: rest
      rw [strData_append, ih []]
      simp
    · rw [if_neg h, ih (c :: acc)]
      simp

lemma strJoin_pyReadlines (s : String) : strJoin (pyReadlines s) = s := by
  apply String.ext
  rw [pyReadlines, strJoin_readlinesAux s.data []]
  rfl

lemma subAux_nil_pat : ∀ s : List Char, subAux [] s = true := by
  intro s
  cases s with
  | nil => rfl
  | cons c t => simp [subAux, List.isPrefixOf]

lemma matchedIdx_empty_query (lines : List String) :
    matchedIdx lines "" = List.range lines.length := by
  unfold matchedIdx
  apply List.filter_eq_self.mpr
  intro i _
  have heff : effectiveKeywords "" = [""] := rfl
  rw [heff]
  unfold lineMatches
  simp only [List.any_cons, List.any_nil, Bool.or_false]
  exact subAux_nil_pat _

lemma runsFold_range' (g : Nat) (hg : 1 ≤ g) :
    ∀ (k a f : Nat), runsFold g (List.range' (a + 1) k) f a = [(f, a + k)] := by
  intro k
  induction k with
  | zero => intro a f; rfl
  | succ k ih =>
    intro a f
    rw [List.range'_succ, runsFold_cons, if_pos (by omega), ih (a + 1) f]
    congr 2
    omega

lemma pyTruthy_pyOr (a b : Option String) :
    pyTruthy (pyOr a b) = (pyTruthy a || pyTruthy b) := by
  unfold pyOr
  cases h : pyTruthy a <;> simp [h]

/-- Claim-side collection for C7 once the scan is armed (the amended reading):
    a line containing `[Contact Information]` is skipped and the scan goes on;
    otherwise a line whose stripped text starts with `[` stops the scan;
    any other line is collected. -/
def collectContact : List String → List String
  | [] => []
  | line :: rest =>
    if hasSubstr line "[Contact Information]" then collectContact rest
    else if pyStartsWith (pyStrip line) "[" then []
    else line :: collectContact rest

/-- Claim-side (amended) contact section: lines after the first line containing
    `[Contact Information]`, collected by `collectContact`. -/
def specContactAmended (content : String) : List String :=
  match (pySplitLines content).dropWhile (fun l => !(hasSubstr l "[Contact Information]")) with
  | [] => []
  | _ :: rest => collectContact rest

/-- Modelled from the claim's words for C7 (not from the source): collect the
    lines after the first line containing `[Contact Information]` until the
    next line starting with a bracketed header. -/
def specContactClaimed (content : String) : List String :=
  match (pySplitLines content).dropWhile (fun l => !(hasSubstr l "[Contact Information]")) with
  | [] => []
  | _ :: rest => rest.takeWhile (fun l => !(pyStartsWith (pyStrip l) "["))

lemma contactLoop_true_eq_collect :
    ∀ ls : List String, contactLoop ls true = collectContact ls := by
  intro ls
  induction ls with
  | nil => rfl
  | cons line rest ih =>
    unfold contactLoop collectContact
    by_cases h : hasSubstr line "[Contact Information]"
    · rw [if_pos h, if_pos h, ih]
    · rw [if_neg h, if_neg h, if_pos rfl]
      by_cases hb : pyStartsWith (pyStrip line) "["
      · rw [if_pos hb, if_pos hb]
      · rw [if_neg hb, if_neg hb, ih]

lemma contactLoop_false_eq (ls : List String) :
    contactLoop ls false
      = match ls.dropWhile (fun l => !(hasSubstr l "[Contact Information]")) with
        | [] => []
        | _ :: rest => collectContact rest := by
  induction ls with
  | nil => rfl
  | cons line rest ih =>
    unfold contactLoop
    rw [List.dropWhile_cons]
    by_cases h : hasSubstr line "[Contact Information]"
    · rw [if_pos h, if_neg (by simp [h]), contactLoop_true_eq_collect]
    · rw [if_neg h, if_neg (by simp), if_pos (by simp [h]), ih]

/-- The predicate "this file's contact text contains the department". -/
def fileHasDept (department : String) (f : TxtFile) : Bool :=
  hasSubstr (pyLower (strIntercalate "\n" (contactSectionLines f.content))) (pyLower department)

/-- The string returned for a file whose contact text contains the department. -/
def deptLines (department : String) (f : TxtFile) : String :=
  strIntercalate "\n"
    ((contactSectionLines f.content).filter
      (fun line => hasSubstr (pyLower line) (pyLower department)))

lemma fileContactResult_eq (department : String) (f : TxtFile) :
    fileContactResult department f.content
      = if fileHasDept department f then some (deptLines department f) else none := rfl

lemma contactGo_eq_find (department : String) :
    ∀ files : List TxtFile,
      contactGo department files
        = match files.find? (fileHasDept department) with
          | some f => deptLines department f
          | none => "Contact information for " ++ sqChar ++ department ++ sqChar ++
              " not found. The related data is not present in the system." := by
  intro files
  induction files with
  | nil => rfl
  | cons f rest ih =>
    unfold contactGo
    rw [List.find?_cons, readFileContent, fileContactResult_eq]
    by_cases h : fileHasDept department f
    · rw [if_pos h, h]
    · rw [if_neg h]
      simp only [h]
      exact ih

lemma getAutoProvider_eq_autoSpec (env : EnvVars) (ks : ApiKeys) (cb : CtorBehavior) :
    getAutoProvider env ks cb = autoSpec env ks cb := by
  unfold getAutoProvider autoSpec getOpenai getGemini
  cases h1 : pyTruthy env.openaiKey <;> cases h2 : pyTruthy ks.openai <;>
    cases h3 : cb.openaiOk <;> cases h4 : pyTruthy env.googleKey <;>
    cases h5 : pyTruthy ks.gemini <;> cases h6 : cb.geminiOk <;>
    simp [pyOr, h1, h2, h3, h4, h5, h6]

lemma runStream_spec (chatId userMsg : String) :
    ∀ (events : List StreamEvent) (raises : Option String) (acc : String) (frames : List Frame),
      runStream chatId userMsg events raises acc frames
        = (frames ++ eventFrames events ++
            (match raises with
             | some e => [Frame.error ("Error: " ++ e)]
             | none => [Frame.complete chatId]),
           match raises with
           | some _ => none
           | none => some (userMsg, acc ++ accumContent events)) := by
  intro events
  induction events with
  | nil =>
    intro raises acc frames
    unfold runStream eventFrames accumContent
    cases raises <;> simp
  | cons ev rest ih =>
    intro raises acc frames
    cases ev with
    | chatModelStream c =>
      unfold runStream eventFrames accumContent
      by_cases h : c.isEmpty
      · rw [if_pos h, if_pos h, if_pos h, ih]
      · rw [if_neg h, if_neg h, if_neg h, ih]
        cases raises <;> simp [String.append_assoc]
    | toolStart n =>
      unfold runStream eventFrames accumContent
      rw [ih]
      simp
    | other k =>
      unfold runStream eventFrames accumContent
      rw [ih]

/-! ## Claim theorems -/

lemma strEmpty_append (s : String) : "" ++ s = s := by
  apply String.ext
  rw [strData_append]
  rfl

/-- C1 (amended): for every file, query, and `context_lines ≤ 499`,
    `search_file_content` matches a line iff some effective keyword is a
    case-insensitive substring of it, groups the ascending matched indices
    into sections with a new section exactly when the gap exceeds
    `2 × context_lines`, pads each section by `context_lines` lines clamped to
    the file bounds, and joins the sections with `"\n---\n"`. The bound
    `context_lines ≤ 499` is forced by the `last_line = -999` sentinel (see
    the counterexample). -/
theorem C1_search_sections_amended (lines : List String) (query : String) (c : Nat)
    (fname : String) (hc : c ≤ 499) :
    (∀ i, i ∈ matchedIdx lines query
        ↔ i < lines.length ∧ lineMatches (effectiveKeywords query) (lines.getD i "") = true)
    ∧ (matchedIdx lines query ≠ [] →
        searchFileContent fname lines query c
          = strIntercalate "\n---\n" (claimSections lines c (matchedIdx lines query))) :=
  ⟨fun i => matchedIdx_mem lines query i,
   fun hm => searchFileContent_claim fname lines query c hc hm⟩

/-- C1 witness: a concrete two-section search, via the amended theorem. -/
theorem C1_search_sections_witness :
    matchedIdx ["alpha\n", "beta\n", "\n", "\n", "\n", "\n", "\n", "\n", "gamma\n"]
        "alpha gamma" ≠ []
    ∧ searchFileContent "f.txt"
        ["alpha\n", "beta\n", "\n", "\n", "\n", "\n", "\n", "\n", "gamma\n"]
        "alpha gamma" 1 = "alpha\nbeta\n\n---\n\ngamma\n" := by
  constructor
  · decide
  · have h := (C1_search_sections_amended
      ["alpha\n", "beta\n", "\n", "\n", "\n", "\n", "\n", "\n", "gamma\n"]
      "alpha gamma" 1 "f.txt" (by decide)).2 (by decide)
    rw [h]
    decide

set_option maxRecDepth 100000 in
/-- C1 counterexample: with `context_lines = 500` and a match on the first
    line of a one-line file, the first loop iteration takes the "extend"
    branch (`0 - (-999) = 999 ≤ 2 × 500`) and Python's negative indexing
    raises `IndexError`, so the result is an error string instead of the
    claimed section. -/
theorem C1_search_sections_counterexample :
    ¬ (searchFileContent "f.txt" ["a\n"] "a" 500
        = strIntercalate "\n---\n" (claimSections ["a\n"] 500 (matchedIdx ["a\n"] "a"))) := by
  decide

/-- C2 counterexample: the whitespace token `"on,"` has length 3, so the claim
    retains it, but the source strips its trailing comma first and then drops
    the two-character remainder `"on"`. -/
theorem C2_keyword_extraction_counterexample :
    ¬ (extractKeywords "on," = claimedKeywords "on,") := by
  decide

/-- C2 (amended): keyword extraction splits the query on whitespace,
    normalises each token by lowercasing, stripping whitespace and stripping
    trailing commas, and retains the normalised token iff it is purely
    numeric, longer than 2 characters, or a three-letter month abbreviation;
    in particular every token whose normalised form is purely numeric or a
    month abbreviation is preserved. -/
theorem C2_keyword_extraction_amended (query : String) :
    extractKeywords query = ((pySplitWs query).map normTok).filter retainTest
    ∧ (∀ t ∈ pySplitWs query,
        (pyIsDigit (normTok t) || monthNames.contains (normTok t)) = true →
        normTok t ∈ extractKeywords query) := by
  constructor
  · exact filterMap_if_map_filter normTok retainTest (pySplitWs query)
  · intro t ht hnum
    have h1 : extractKeywords query = ((pySplitWs query).map normTok).filter retainTest :=
      filterMap_if_map_filter normTok retainTest (pySplitWs query)
    rw [h1]
    apply List.mem_filter.mpr
    refine ⟨List.mem_map_of_mem normTok ht, ?_⟩
    unfold retainTest
    rcases Bool.or_eq_true_iff.mp hnum with h | h
    · rw [h]
      simp
    · rw [h]
      simp

/-- C2 witness: the claim's own example, `"Jan 1"`. -/
theorem C2_keyword_extraction_witness :
    extractKeywords "Jan 1" = ["jan", "1"]
    ∧ "1" ∈ pySplitWs "Jan 1"
    ∧ normTok "1" ∈ extractKeywords "Jan 1" := by
  refine ⟨by decide, by decide, ?_⟩
  exact (C2_keyword_extraction_amended "Jan 1").2 "1" (by decide) (by decide)

/-- C3: when keyword extraction yields zero tokens, matching falls back to the
    whole raw query, lowercased, as the single keyword. -/
theorem C3_fallback_raw_query (query : String) (h : extractKeywords query = []) :
    effectiveKeywords query = [pyLower query]
    ∧ ∀ lines : List String,
        matchedIdx lines query
          = (List.range lines.length).filter
              (fun i => hasSubstr (pyLower (lines.getD i "")) (pyLower query)) := by
  have heff : effectiveKeywords query = [pyLower query] := by
    unfold effectiveKeywords
    rw [h]
    rfl
  refine ⟨heff, ?_⟩
  intro lines
  unfold matchedIdx
  rw [heff]
  apply List.filter_congr
  intro i _
  unfold lineMatches
  simp

/-- C3 witness: the stop-word query `"is it on"` from the specification. -/
theorem C3_fallback_raw_query_witness :
    extractKeywords "is it on" = []
    ∧ effectiveKeywords "is it on" = ["is it on"] := by
  refine ⟨by decide, ?_⟩
  have h := (C3_fallback_raw_query "is it on" (by decide)).1
  rw [h]
  decide

/-- C4 counterexample: with both an operator (environment) OpenAI key and a
    user-supplied OpenAI key configured, the resolved client carries the
    user key, not the operator key, because `_get_openai` evaluates
    `self._api_keys.get('openai') or os.getenv('OPENAI_API_KEY')`. -/
theorem C4_auto_provider_counterexample :
    getAutoProvider ⟨some "ENVKEY", none⟩
        ⟨some "USERKEY", none, none, none, none, none⟩ ⟨true, true⟩
      = LLM.openai "gpt-4" "USERKEY"
    ∧ getAutoProvider ⟨some "ENVKEY", none⟩
        ⟨some "USERKEY", none, none, none, none, none⟩ ⟨true, true⟩
      ≠ LLM.openai "gpt-4" "ENVKEY" := by
  decide

/-- C4 (amended): in "auto" mode the attempts are ordered
    environment-triggered OpenAI, user-key-triggered OpenAI,
    environment-triggered Gemini, user-key-triggered Gemini, each raising
    attempt caught and falling through, with the local provider as the final
    unconditional fallback; inside each attempt the user-supplied key takes
    precedence over the environment key; with no remote credential configured
    at all, the selector resolves to the local provider without raising. -/
theorem C4_auto_provider_amended (env : EnvVars) (ks : ApiKeys) (cb : CtorBehavior) :
    getAutoProvider env ks cb = autoSpec env ks cb
    ∧ (pyTruthy env.openaiKey = false → pyTruthy ks.openai = false →
       pyTruthy env.googleKey = false → pyTruthy ks.gemini = false →
       getAutoProvider env ks cb = getOllama ks) := by
  refine ⟨getAutoProvider_eq_autoSpec env ks cb, ?_⟩
  intro h1 h2 h3 h4
  rw [getAutoProvider_eq_autoSpec]
  unfold autoSpec
  rw [h1, h2, h3, h4]
  simp

/-- C4 witness: no remote credentials at all resolve to the default local
    Ollama configuration. -/
theorem C4_auto_provider_witness :
    getAutoProvider ⟨none, none⟩ ⟨none, none, none, none, none, none⟩ ⟨true, true⟩
      = LLM.ollama "http://localhost:11434" "llama3.1:8b" := by
  have h := (C4_auto_provider_amended ⟨none, none⟩
    ⟨none, none, none, none, none, none⟩ ⟨true, true⟩).2 rfl rfl rfl rfl
  rw [h]
  decide

/-- C5: after an `AGENT` state, a provider that does not support tools always
    routes to `"end"` regardless of the last message; a tool-capable provider
    routes to `"tools"` iff the last message carries at least one tool call. -/
theorem C5_should_continue (p : String) (ks : ApiKeys) (tc : Option (List String)) :
    (supportsTools p ks = false → shouldContinue p ks tc = "end")
    ∧ (supportsTools p ks = true →
        (shouldContinue p ks tc = "tools" ↔ hasToolCalls tc = true)) := by
  constructor
  · intro h
    unfold shouldContinue
    rw [h]
    rfl
  · intro h
    unfold shouldContinue
    rw [h]
    by_cases hc : hasToolCalls tc
    · simp [hc]
    · simp only [Bool.not_true, Bool.false_eq_true, if_false, hc, if_neg]
      constructor
      · intro habs
        exact absurd habs (by decide)
      · intro habs
        exact absurd habs (by simp [hc])

/-- C5 witness: a tool-incapable local model (`gemma`) routes to `"end"` even
    though the last message requests a tool call. -/
theorem C5_should_continue_witness :
    supportsTools "ollama" ⟨none, none, none, none, none, some "gemma:2b"⟩ = false
    ∧ shouldContinue "ollama" ⟨none, none, none, none, none, some "gemma:2b"⟩
        (some ["call1"]) = "end" :=
  ⟨by decide,
   (C5_should_continue "ollama" ⟨none, none, none, none, none, some "gemma:2b"⟩
      (some ["call1"])).1 (by decide)⟩

/-- C6: every tool in the tool set, on every input, returns a sentinel string
    containing (case-insensitively; the source capitalises the leading "The")
    "the related data is not present in the system" when its category
    directory does not exist or holds zero `.txt` files; the embedding is a
    total function, so no exception is raised. -/
theorem C6_empty_category_sentinel (i : Fin availableTools.length) (fs : FS) (q : String)
    (h : getAllTxtFiles ((availableTools.get i).cat fs) = []) :
    hasSubstr (pyLower ((availableTools.get i).run fs q))
      "the related data is not present in the system" = true := by
  rcases i with ⟨iv, hi⟩
  have hi5 : iv < 5 := by simpa [availableTools] using hi
  interval_cases iv
  · show hasSubstr (pyLower (searchUniversityInfo fs.administrative q)) _ = true
    unfold searchUniversityInfo
    rw [show getAllTxtFiles fs.administrative = [] from h,
      if_pos (show ([] : List TxtFile).isEmpty = true from rfl)]
    decide
  · show hasSubstr (pyLower (searchAcademicCalendar fs.academic q)) _ = true
    unfold searchAcademicCalendar
    rw [show getAllTxtFiles fs.academic = [] from h,
      if_pos (show ([] : List TxtFile).isEmpty = true from rfl)]
    decide
  · show hasSubstr (pyLower (checkIfDateIsHoliday fs.academic q)) _ = true
    unfold checkIfDateIsHoliday
    rw [show getAllTxtFiles fs.academic = [] from h,
      if_pos (show ([] : List TxtFile).isEmpty = true from rfl)]
    decide
  · show hasSubstr (pyLower (getUniversityContactInfo fs.administrative q)) _ = true
    unfold getUniversityContactInfo
    rw [show getAllTxtFiles fs.administrative = [] from h,
      if_pos (show ([] : List TxtFile).isEmpty = true from rfl)]
    decide
  · show hasSubstr (pyLower (searchEducationalResources fs.educational q)) _ = true
    unfold searchEducationalResources
    rw [show getAllTxtFiles fs.educational = [] from h,
      if_pos (show ([] : List TxtFile).isEmpty = true from rfl)]
    decide

/-- C6 witness: the administrative search tool on an absent directory. -/
theorem C6_empty_category_sentinel_witness :
    hasSubstr (pyLower ((availableTools.get ⟨0, by decide⟩).run ⟨none, none, none⟩ "x"))
      "the related data is not present in the system" = true :=
  C6_empty_category_sentinel ⟨0, by decide⟩ ⟨none, none, none⟩ "x" rfl

/-- C7 counterexample: a second line containing `[Contact Information]`
    re-arms the scan instead of being collected, and a later bracketed header
    does not stop collection before it, so the collected section differs from
    the claim's "collect until the next bracketed header" description. -/
theorem C7_contact_scan_counterexample :
    ¬ (contactSectionLines
        "[Contact Information]\nAid desk A\n[Contact Information]\nAid desk B\n[Other]\ntail"
      = specContactClaimed
        "[Contact Information]\nAid desk A\n[Contact Information]\nAid desk B\n[Other]\ntail") := by
  decide

/-- C7 (amended): `get_university_contact_info` scans each file line by line
    for the first line containing `[Contact Information]`, then collects the
    subsequent lines, skipping (and scanning past) any line that itself
    contains the marker, stopping at the first other line whose stripped text
    starts with `[`; the collected lines are then filtered for
    case-insensitive containment of the department name and joined. -/
theorem C7_contact_scan_amended (content department : String) :
    contactSectionLines content = specContactAmended content
    ∧ fileContactResult department content
      = (let cs := specContactAmended content
         if hasSubstr (pyLower (strIntercalate "\n" cs)) (pyLower department) then
           some (strIntercalate "\n"
             (cs.filter (fun line => hasSubstr (pyLower line) (pyLower department))))
         else none) := by
  have h1 : contactSectionLines content = specContactAmended content := by
    unfold contactSectionLines specContactAmended
    exact contactLoop_false_eq (pySplitLines content)
  refine ⟨h1, ?_⟩
  unfold fileContactResult
  rw [h1]

/-- C8: when the agent stream raises after a prefix of events, the handler
    emits exactly the frames of that prefix followed by a single error frame,
    and persists nothing — the accumulated partial answer is discarded; on the
    success path the concatenation of the content deltas is persisted. -/
theorem C8_stream_error_discard (chatId userMsg : String) (events : List StreamEvent)
    (err : String) :
    (streamResponse chatId userMsg events (some err)).2 = none
    ∧ (streamResponse chatId userMsg events (some err)).1
        = eventFrames events ++ [Frame.error ("Error: " ++ err)]
    ∧ (streamResponse chatId userMsg events none).2 = some (userMsg, accumContent events) := by
  unfold streamResponse
  rw [runStream_spec, runStream_spec]
  refine ⟨rfl, by simp, ?_⟩
  rw [strEmpty_append]

/-- C9: with the empty query on a non-empty file, keyword extraction yields
    zero tokens, the fallback keyword is the empty string, every line matches,
    and the returned string is the entire file content as one section with no
    `"---"` separator and no not-found message. -/
theorem C9_empty_query_full_file (content fname : String) (h : content ≠ "") :
    extractKeywords "" = []
    ∧ effectiveKeywords "" = [""]
    ∧ searchFileContent fname (pyReadlines content) "" 3 = content := by
  refine ⟨rfl, rfl, ?_⟩
  have hjoin : strJoin (pyReadlines content) = content := strJoin_pyReadlines content
  have hne : pyReadlines content ≠ [] := by
    intro h0
    apply h
    rw [← hjoin, h0]
    rfl
  obtain ⟨k, hk⟩ : ∃ k, (pyReadlines content).length = k + 1 := by
    cases hlen : (pyReadlines content).length with
    | zero => exact absurd (List.length_eq_zero.mp hlen) hne
    | succ k => exact ⟨k, rfl⟩
  have hmi : matchedIdx (pyReadlines content) "" = List.range (pyReadlines content).length :=
    matchedIdx_empty_query (pyReadlines content)
  have hmne : matchedIdx (pyReadlines content) "" ≠ [] := by
    rw [hmi, hk]
    intro h0
    have := congrArg List.length h0
    simp at this
  have hclaim := searchFileContent_claim fname (pyReadlines content) "" 3 (by omega) hmne
  have hrb : runBounds 6 (List.range (k + 1)) = [(0, k)] := by
    rw [List.range_eq_range', List.range'_succ]
    have h0 := runsFold_range' 6 (by omega) k 0 0
    simp only [Nat.zero_add] at h0
    exact h0
  have hsec : secString (pyReadlines content) 3 (0, k) = content := by
    unfold secString sliceOf
    rw [show (0 : Nat) - 3 = 0 from rfl, List.drop_zero,
      List.take_of_length_le (by omega : (pyReadlines content).length ≤ k + 3 + 1 - 0)]
    exact hjoin
  rw [hclaim, hmi, hk]
  unfold claimSections
  rw [show (3 : Nat) * 2 = 6 from rfl, hrb, List.map_cons, List.map_nil, hsec]
  rfl

/-- C9 witness: the two-line file `"a\nb\n"`. -/
theorem C9_empty_query_full_file_witness :
    searchFileContent "calendar.txt" (pyReadlines "a\nb\n") "" 3 = "a\nb\n" :=
  (C9_empty_query_full_file "a\nb\n" "calendar.txt" (by decide)).2.2

/-- C10: `get_university_contact_info` returns contact lines from at most one
    file: it returns the filtered contact lines of the first file (in
    directory-enumeration order) whose contact section contains the
    department, and the not-found sentinel when no file does — it never
    aggregates matches across files. -/
theorem C10_contact_first_file_only (department : String) (files : List TxtFile)
    (h : files ≠ []) :
    getUniversityContactInfo (some files) department
      = match files.find? (fileHasDept department) with
        | some f => deptLines department f
        | none => "Contact information for " ++ sqChar ++ department ++ sqChar ++
            " not found. The related data is not present in the system." := by
  unfold getUniversityContactInfo
  rw [show getAllTxtFiles (some files) = files from rfl,
    if_neg (by simp only [List.isEmpty_iff]; exact h)]
  exact contactGo_eq_find department files

/-- C10 witness: two files both containing the department; only the first
    file's lines are returned. -/
theorem C10_contact_first_file_only_witness :
    getUniversityContactInfo
      (some [⟨"a.txt", "[Contact Information]\nBursar: 123\n[Other]"⟩,
             ⟨"b.txt", "[Contact Information]\nBursar: 999"⟩]) "Bursar" = "Bursar: 123" := by
  have h := C10_contact_first_file_only "Bursar"
    [⟨"a.txt", "[Contact Information]\nBursar: 123\n[Other]"⟩,
     ⟨"b.txt", "[Contact Information]\nBursar: 999"⟩] (List.cons_ne_nil _ _)
  rw [h]
  decide
